import Mathlib

/-!
Verification of the education_rag repository's core pipeline:
the Redis-backed job queue (`queue_service.py`), the chunking /
embedding-batching / vector-upsert pipeline (`document_processor.py`),
the indexing worker state machine (`worker.py`), and the retrieval +
generation query path (`rag_service.py`).

Python strings are modelled as `List Char` (or `String` where only
equality matters), Python ints as `Nat`/`Int` (with explicit `Option`
for `None`), the Redis list as a Lean `List` whose head is the Redis
head (`LPUSH` side), and fallible calls as `Except`.  External
services (Qdrant, the embedding and completion APIs) are modelled by
their documented call contracts, passed in as explicit oracles.

The file is organised as: all definitions first, then all lemmas and
the claim theorems.
-/

namespace EducationRag

/-! ## Python primitives -/

/-- Python slice `l[a:b]` for `0 ≤ a ≤ b` (clamping at the ends, as in Python). -/
def pySlice (l : List α) (a b : Nat) : List α :=
  (l.drop a).take (b - a)

/-- Python `range(0, stop, step)` for `step > 0`: the list
`[0, step, 2*step, ...]` with `⌈stop/step⌉` elements. -/
def pyRange (stop step : Nat) : List Nat :=
  (List.range ((stop + step - 1) / step)).map (fun k => k * step)

/-- Python truthiness of an optional integer argument: `None` and `0` are falsy. -/
def pyTruthyInt : Option Nat → Bool
  | none => false
  | some n => n != 0

/-- Python `str.rfind(c)` for a one-character needle on a `List Char`:
the greatest index holding `c`, or `-1` when absent. -/
def pyRfindChar (c : Char) : List Char → Int
  | [] => -1
  | a :: rest =>
      let r := pyRfindChar c rest
      if 0 ≤ r then r + 1
      else if a = c then 0 else -1

/-- Python `str.rfind(". ")` on a `List Char`: the greatest index `i` with
`s[i] = '.'` and `s[i+1] = ' '`, or `-1` when absent. -/
def pyRfindDotSpace : List Char → Int
  | [] => -1
  | a :: rest =>
      let r := pyRfindDotSpace rest
      if 0 ≤ r then r + 1
      else if a = '.' ∧ rest.head? = some ' ' then 0 else -1

/-! ## Job queue (`queue_service.py`)

The Redis list `file_processing_queue` is a `List α` whose head is the
Redis list head.  `add_indexing_task` does `LPUSH` (prepend),
`get_next_task` does `BRPOP` (remove at the tail), and `retry_task`
does `RPUSH` (append at the tail). -/

namespace QueueService

/-- `add_indexing_task`: `LPUSH` of the job message onto the queue head. -/
def add_indexing_task (msg : α) (q : List α) : List α :=
  msg :: q

/-- `retry_task`: `RPUSH` of the job message onto the queue tail. -/
def retry_task (msg : α) (q : List α) : List α :=
  q ++ [msg]

/-- `get_next_task`: `BRPOP` — removes and returns the element at the queue
tail (`none` on an empty queue / timeout), together with the remaining queue. -/
def get_next_task (q : List α) : Option α × List α :=
  (q.getLast?, q.dropLast)

end QueueService

/-! ## Document processor (`document_processor.py`)

Configuration constants from `DocumentProcessor.__init__`:
`chunk_size = 1000`, `chunk_overlap = 200`, `batch_size = 100`;
the embedding batch limit in `_get_embeddings` is 16.
The chunker is stated over the parameters `csize` (`self.chunk_size`)
and `overlap` (`self.chunk_overlap`) so that theorems can also be
exercised on small concrete inputs. -/

namespace DocumentProcessor

/-- The `chunk_size` configured in `DocumentProcessor.__init__`. -/
def chunk_size : Nat := 1000

/-- The `chunk_overlap` configured in `DocumentProcessor.__init__`. -/
def chunk_overlap : Nat := 200

/-- The vector upsert `batch_size` configured in `DocumentProcessor.__init__`. -/
def batch_size : Nat := 100

/-- The window-end computation of one `_chunk_text` loop iteration that does
not hit the final-window break: take the window `text[start:start+csize]`,
compute `last_sentence = window.rfind('. ')` and `last_word = window.rfind(' ')`
(both window-relative), and compare them — exactly as the source does —
against the absolute position `start + csize // 2`. -/
def chunkEnd (csize : Nat) (text : List Char) (start : Nat) : Nat :=
  let window := pySlice text start (start + csize)
  let lastSentence := pyRfindDotSpace window
  let lastWord := pyRfindChar ' ' window
  if ((start + csize / 2 : Nat) : Int) < lastSentence then
    start + lastSentence.toNat + 1
  else if ((start + csize / 2 : Nat) : Int) < lastWord then
    start + lastWord.toNat
  else
    start + csize

/-- The next window start of one `_chunk_text` loop iteration:
`start = end - chunk_overlap if end > chunk_overlap else end`. -/
def nextStart (csize overlap : Nat) (text : List Char) (start : Nat) : Nat :=
  let e := chunkEnd csize text start
  if overlap < e then e - overlap else e

/-- The `while start < len(text)` loop of `_chunk_text`, with explicit fuel.
Each iteration either hits the `end >= len(text)` break (appending
`text[start:]`) or appends `text[start:end]` for the adjusted `end` and
continues at `nextStart`.  The fuel only bounds the iteration count; the
lemmas below show it is never exhausted for the configurations in use. -/
def chunkLoop (csize overlap : Nat) (text : List Char) : Nat → Nat → List (List Char)
  | _, 0 => []
  | start, fuel + 1 =>
      if start < text.length then
        if text.length ≤ start + csize then
          [text.drop start]
        else
          pySlice text start (chunkEnd csize text start) ::
            chunkLoop csize overlap text (nextStart csize overlap text start) fuel
      else []

/-- `_chunk_text`: returns `[text]` when `len(text) <= chunk_size`, otherwise
runs the sliding-window loop from `start = 0`.  `text.length` fuel suffices
because the start position strictly increases every iteration. -/
def chunk_text (csize overlap : Nat) (text : List Char) : List (List Char) :=
  if text.length ≤ csize then [text]
  else chunkLoop csize overlap text 0 text.length

/-- Removing the overlapping prefixes when concatenating chunks: every chunk
after the first begins `overlap` characters before its predecessor's end, so
its first `overlap` characters are dropped before concatenation. -/
def removeOverlapPrefixes (overlap : Nat) : List (List Char) → List Char
  | [] => []
  | c :: rest => c ++ (rest.map (List.drop overlap)).flatten

/-- The per-call input batches issued by `_get_embeddings`:
Python `for i in range(0, len(texts), 16): texts[i:i + 16]`
(`batch_size = 16`, the Azure OpenAI embedding API batch limit). -/
def embeddingBatches (texts : List α) : List (List α) :=
  (pyRange texts.length 16).map (fun i => pySlice texts i (i + 16))

/-- `_get_embeddings`: issues one embedding-service call per batch and
extends the accumulator (`all_embeddings.extend(batch_embeddings)`) with each
call's result, in batch order.  The `embed` oracle is the embedding service:
request `input` list ↦ response `data` list of embeddings. -/
def get_embeddings (embed : List α → List β) (texts : List α) : List β :=
  (embeddingBatches texts).foldl (fun acc b => acc ++ embed b) []

/-- `_batch_upsert_points`, as the list of point batches of the Qdrant
upsert calls it issues, in order: a single call with all points when
`len(points) <= batch_size`, otherwise one call per
`range(0, total_points, batch_size)` slice `points[i:min(i+batch_size, total)]`. -/
def batch_upsert_points (points : List α) : List (List α) :=
  if points.length ≤ batch_size then [points]
  else (pyRange points.length batch_size).map (fun i => pySlice points i (i + batch_size))

end DocumentProcessor

/-! ## Data model (`models.py`) -/

/-- `ProcessingStatus` from `models.py`. -/
inductive ProcessingStatus
  | pending
  | processing
  | completed
  | failed
deriving DecidableEq, Repr

/-- A `documents` table row, with the fields the worker reads or writes. -/
structure DocumentRec where
  file_path : String
  original_filename : String
  file_size : Nat
  status : ProcessingStatus
  collection_name : Option String
deriving DecidableEq, Repr

/-- The relational record store for documents, keyed by document id. -/
abbrev DocDb := List (Nat × DocumentRec)

/-- `Document.query.get(document_id)`: the first row with the given id. -/
def dbGet : DocDb → Nat → Option DocumentRec
  | [], _ => none
  | p :: rest, docId => if p.1 = docId then some p.2 else dbGet rest docId

/-- An update plus commit of the row with the given id (other rows unchanged). -/
def dbUpdate (db : DocDb) (docId : Nat) (f : DocumentRec → DocumentRec) : DocDb :=
  db.map (fun p => if p.1 = docId then (p.1, f p.2) else p)

/-! ## Indexing worker (`worker.py`) -/

namespace Worker

/-- A queue job message: `{"document_id", "action", ...}`, each field possibly
absent (`task.get` returns `None`). -/
structure TaskMsg where
  document_id : Option Nat
  action : Option String
  collection_name : Option String := none
deriving DecidableEq, Repr

/-- Python truthiness of an optional string: `None` and `""` are falsy
(the `if not document_id or not action:` guard). -/
def pyTruthyStr : Option String → Bool
  | none => false
  | some s => s != ""

/-- A catchable Python exception, as the worker's `except Exception` sees it. -/
inductive PyExn
  | typeError
  | runtime (msg : String)
deriving DecidableEq, Repr

/-- Number of required positional parameters (after `self`) in the signature
`DocumentProcessor.process_document(self, file_path, document_id, user_id)`
(`document_processor.py` line 331). -/
def processDocumentParamCount : Nat := 3

/-- Number of positional arguments supplied at the `process_document` call
site in `process_indexing_task` (`worker.py` lines 59–62:
`document.file_path, document.id`). -/
def workerProcessDocumentArgCount : Nat := 2

/-- The result value of a completed `process_document` call:
`(True, len(chunks))` or `(False, error_message)`. -/
abbrev PDResult := Bool × (Nat ⊕ String)

/-- A Python call of a function with `paramCount` required positional
parameters and `argCount` supplied arguments: when the arity does not match,
`TypeError` is raised before the body runs, leaving the state `st` (here: the
vector store) untouched; otherwise the body runs on `st`. -/
def pyCallWithArity (paramCount argCount : Nat)
    (body : σ → Except PyExn PDResult × σ) (st : σ) : Except PyExn PDResult × σ :=
  if argCount = paramCount then body st else (.error .typeError, st)

/-- The `process_document` call exactly as `process_indexing_task` performs
it: two positional arguments against the three-parameter signature. -/
def workerProcessDocumentCall (body : σ → Except PyExn PDResult × σ) :
    σ → Except PyExn PDResult × σ :=
  pyCallWithArity processDocumentParamCount workerProcessDocumentArgCount body

/-- `process_indexing_task`.  `callPD` is the `process_document` invocation
(its returned value or escaped exception, and its effect on the vector store
`σ`); `callDel` is the `delete_document` invocation.  Mirrors the source:
the falsy-field guard, the missing-document early return, the
PROCESSING-then-COMPLETED/FAILED commits for `index`, the vector-only
`delete` branch, the unknown-action warning path, and the `except` handler
that re-fetches the document and forces FAILED for `index` actions. -/
def process_indexing_task (callPD : σ → Except PyExn PDResult × σ)
    (callDel : σ → Bool × σ) (task : TaskMsg) (db : DocDb) (vec : σ) :
    DocDb × σ :=
  match task.document_id, task.action with
  | some docId, some action =>
      if pyTruthyInt (some docId) && pyTruthyStr (some action) then
        match dbGet db docId with
        | none => (db, vec)
        | some _ =>
            if action = "index" then
              let db1 := dbUpdate db docId (fun d => { d with status := .processing })
              match callPD vec with
              | (.ok (true, _), vec1) =>
                  (dbUpdate db1 docId (fun d =>
                    { d with status := .completed, collection_name := some "documents" }), vec1)
              | (.ok (false, _), vec1) =>
                  (dbUpdate db1 docId (fun d => { d with status := .failed }), vec1)
              | (.error _, vec1) =>
                  match dbGet db1 docId with
                  | some _ => (dbUpdate db1 docId (fun d => { d with status := .failed }), vec1)
                  | none => (db1, vec1)
            else if action = "delete" then
              let (_, vec1) := callDel vec
              (db, vec1)
            else (db, vec)
      else (db, vec)
  | _, _ => (db, vec)

/-- What one iteration of the worker main loop observes: a dequeued task, a
dequeue timeout (idle poll), or a `KeyboardInterrupt` shutdown signal. -/
inductive WorkerEvent
  | task (t : TaskMsg)
  | timeout
  | interrupt
deriving DecidableEq, Repr

/-- Whether the `while True` main loop continues to the next iteration. -/
inductive LoopSignal
  | continues
  | shutdown
deriving DecidableEq, Repr

/-- One iteration of the worker `while True` main loop: a dequeued task is
processed by `process_indexing_task` (whose internal `try/except` consumes
task-level failures) and the loop continues; an idle timeout sleeps and
continues; `KeyboardInterrupt` breaks the loop. -/
def worker_main_step (callPD : σ → Except PyExn PDResult × σ)
    (callDel : σ → Bool × σ) (ev : WorkerEvent) (db : DocDb) (vec : σ) :
    LoopSignal × DocDb × σ :=
  match ev with
  | .interrupt => (.shutdown, db, vec)
  | .timeout => (.continues, db, vec)
  | .task t => (.continues, process_indexing_task callPD callDel t db vec)

end Worker

/-! ## RAG service (`rag_service.py`) -/

namespace RAGService

/-- `Config.RAG_SEARCH_TOP_K` default. -/
def RAG_SEARCH_TOP_K : Nat := 5

/-- `Config.RAG_SEARCH_SCORE_THRESHOLD` default. -/
def RAG_SEARCH_SCORE_THRESHOLD : ℚ := 1 / 2

/-- A stored Qdrant point with the payload written by
`process_document` (`document_processor.py` lines 366–381). -/
structure VecPoint where
  user_id : Nat
  document_id : Nat
  chunk_id : Nat
  source : String
  file_path : String
  chunk_size : Nat
  content : String
deriving DecidableEq, Repr

/-- The Qdrant similarity search this client calls, per its documented
contract: keep the stored points that pass the optional `user_id`
must-filter and score at least the threshold, rank by descending similarity,
truncate to `limit`.  `score` gives each stored point's similarity to the
query embedding. -/
def qdrantSearch (stored : List VecPoint) (score : VecPoint → ℚ)
    (flt : Option Nat) (limit : Nat) (threshold : ℚ) : List VecPoint :=
  ((stored.filter (fun p =>
      (match flt with
       | none => true
       | some u => p.user_id == u) && decide (threshold ≤ score p))).mergeSort
    (fun p q => decide (score q ≤ score p))).take limit

/-- One entry of the document list `_search_relevant_documents` returns:
content, similarity score, and the metadata extracted from the payload. -/
structure RetrievedDoc where
  content : String
  score : ℚ
  document_id : Option Nat
  chunk_id : Nat
  source : String
  chunk_size_meta : Nat
deriving DecidableEq, Repr

/-- The result-document conversion `_search_relevant_documents` applies to a
returned point with a new-format payload. -/
def docOfPoint (score : VecPoint → ℚ) (p : VecPoint) : RetrievedDoc :=
  { content := p.content
    score := score p
    document_id := some p.document_id
    chunk_id := p.chunk_id
    source := p.source
    chunk_size_meta := p.chunk_size }

/-- The Qdrant call inside `_search_relevant_documents`: the payload
`user_id` must-filter is attached only when `user_id` is truthy
(`if user_id:` — so `None` and `0` both search unfiltered), the limit is
`top_k or RAG_SEARCH_TOP_K` (Python `or`, so `0` also falls back), and the
score threshold is `RAG_SEARCH_SCORE_THRESHOLD`. -/
def searchSelectedPoints (stored : List VecPoint) (score : VecPoint → ℚ)
    (user_id : Option Nat) (top_k : Option Nat) : List VecPoint :=
  let flt := if pyTruthyInt user_id then user_id else none
  let limit := match top_k with
    | some k => if k != 0 then k else RAG_SEARCH_TOP_K
    | none => RAG_SEARCH_TOP_K
  qdrantSearch stored score flt limit RAG_SEARCH_SCORE_THRESHOLD

/-- `_search_relevant_documents`: converts each point returned by the Qdrant
search into a result document, skipping points whose content is falsy
(`if not content: continue`). -/
def search_relevant_documents (stored : List VecPoint) (score : VecPoint → ℚ)
    (user_id : Option Nat) (top_k : Option Nat) : List RetrievedDoc :=
  ((searchSelectedPoints stored score user_id top_k).filter
    (fun p => p.content != "")).map (docOfPoint score)

/-- The fixed no-relevant-documents answer of `query_with_context` and
`query_with_context_streaming`. -/
def NO_RELEVANT_DOCS_MSG : String :=
  "I don't have any relevant documents to answer your question. Please make sure you have uploaded documents that contain information related to your query."

/-- A chat message `{"role", "content"}`. -/
structure ChatMsg where
  role : String
  content : String
deriving DecidableEq, Repr

/-- The fixed system instruction of `RAGService`. -/
def system_prompt : String :=
  "You are a helpful AI assistant that answers questions based on the provided context documents. \n        \nInstructions:\n- Use only the information from the provided context to answer questions\n- If you cannot find the answer in the context, say \"I don't have enough information to answer this question based on the provided documents.\"\n- ellaborate the answer in details. \n"

/-- Python `str.strip()` (both-end whitespace trim). -/
def pyStrip (s : String) : String :=
  String.mk (((s.toList.dropWhile Char.isWhitespace).reverse.dropWhile
    Char.isWhitespace).reverse)

/-- Python `history[-8:]`. -/
def pyLastN (n : Nat) (l : List α) : List α :=
  l.drop (l.length - n)

/-- The labelled context text: one
`Document i (from source):` + newline + content + blank line
block per retrieved document, numbered from 1. -/
def buildContextText (docs : List RetrievedDoc) : String :=
  String.join (docs.enum.map (fun p =>
    "Document " ++ toString (p.1 + 1) ++ " (from " ++ p.2.source ++ "):\n"
      ++ p.2.content ++ "\n\n"))

/-- The chat-completion message list: the system prompt, then the last 8
history turns whose role is `user` or `assistant`, then the user turn
carrying the context and the question. -/
def buildMessages (query ctx : String) (history : List ChatMsg) : List ChatMsg :=
  ChatMsg.mk "system" system_prompt ::
    ((pyLastN 8 history).filter (fun m => m.role == "user" || m.role == "assistant")
      ++ [ChatMsg.mk "user" ("Context:\n" ++ ctx ++ "\n\nQuestion: " ++ query ++ "\n\nAnswer:")])

/-- `_generate_response_with_context`: returns the empty-context fixed
message without calling the completion service, or the completion answer;
the second component counts completion-service calls.  `complete` is the
chat-completion service (message list ↦ answer text). -/
def generate_response_with_context (complete : List ChatMsg → String)
    (query : String) (docs : List RetrievedDoc) (history : List ChatMsg) :
    String × Nat :=
  let ctx := buildContextText docs
  if pyStrip ctx = "" then
    ("I don't have any relevant documents to answer your question.", 0)
  else
    (complete (buildMessages query ctx history), 1)

/-- `_generate_streaming_response_with_context`, as the finite list of
yielded fragments: the single empty-context fixed message, or the fragments
the streaming completion produces (`streamChunks`, one element per parsed
`delta.content`). -/
def generate_streaming_response_with_context (streamChunks : List ChatMsg → List String)
    (query : String) (docs : List RetrievedDoc) (history : List ChatMsg) :
    List String :=
  let ctx := buildContextText docs
  if pyStrip ctx = "" then
    ["I don't have any relevant documents to answer your question."]
  else
    streamChunks (buildMessages query ctx history)

/-- The outcome of `query_with_context`: the answer text and the number of
completion-service calls made. -/
structure QueryOutcome where
  answer : String
  completion_calls : Nat
deriving DecidableEq, Repr

/-- `query_with_context`: retrieves the relevant documents scoped to
`user_id` (the question's embedding is abstracted into the `score` oracle of
the stored points) and either short-circuits on `if not relevant_docs:` with
the fixed no-documents answer — making no completion call — or answers via
`_generate_response_with_context`. -/
def query_with_context (complete : List ChatMsg → String) (stored : List VecPoint)
    (score : VecPoint → ℚ) (question : String) (history : List ChatMsg)
    (user_id : Option Nat) : QueryOutcome :=
  let docs := search_relevant_documents stored score user_id none
  if docs.isEmpty then
    { answer := NO_RELEVANT_DOCS_MSG, completion_calls := 0 }
  else
    let r := generate_response_with_context complete question docs history
    { answer := r.1, completion_calls := r.2 }

/-- `query_with_context_streaming`, as the finite list of yielded fragments:
exactly the fixed no-documents message in the short-circuit case, otherwise
the fragments of the streaming generation. -/
def query_with_context_streaming (streamChunks : List ChatMsg → List String)
    (stored : List VecPoint) (score : VecPoint → ℚ) (question : String)
    (history : List ChatMsg) (user_id : Option Nat) : List String :=
  let docs := search_relevant_documents stored score user_id none
  if docs.isEmpty then
    [NO_RELEVANT_DOCS_MSG]
  else
    generate_streaming_response_with_context streamChunks question docs history

end RAGService

/-- A stored point owned by user 1, scoring above the threshold, with
non-empty content — used to exercise the owner filter. -/
def cexPoint : RAGService.VecPoint :=
  { user_id := 1
    document_id := 7
    chunk_id := 0
    source := "s.txt"
    file_path := "uploads/s.txt"
    chunk_size := 5
    content := "hello" }

/-- A pending document record for exercising the worker. -/
def doc0 : DocumentRec :=
  { file_path := "uploads/f.txt"
    original_filename := "f.txt"
    file_size := 10
    status := .pending
    collection_name := none }

/-! ## A concrete chunker input

A 2000-character text: 1400 letters, then the sentence terminator
`". "`, then 598 more letters.  Under the configured
`chunk_size = 1000`, `chunk_overlap = 200`, the first window is cut hard
at 1000 and the second window is `text[800:1800]`, in which the sentence
terminator sits at window-relative position 600 — inside the second half
of that window. -/
def c3Text : List Char :=
  List.replicate 1400 'a' ++ '.' :: ' ' :: List.replicate 598 'a'

/-! ## Lemmas on the Python primitives -/

theorem pyRfindChar_lt_length (c : Char) (s : List Char) :
    pyRfindChar c s < (s.length : Int) := by
  induction s with
  | nil => simp [pyRfindChar]
  | cons a rest ih =>
      simp only [pyRfindChar, List.length_cons]
      split
      · push_cast
        omega
      · split <;> (push_cast; omega)

theorem pyRfindDotSpace_lt_length (s : List Char) :
    pyRfindDotSpace s < (s.length : Int) := by
  induction s with
  | nil => simp [pyRfindDotSpace]
  | cons a rest ih =>
      simp only [pyRfindDotSpace, List.length_cons]
      split
      · push_cast
        omega
      · split <;> (push_cast; omega)

theorem pySlice_shift (l : List α) (c a b : Nat) :
    pySlice l (c + a) (c + b) = pySlice (l.drop c) a b := by
  simp only [pySlice, List.drop_drop]
  have h1 : c + a = a + c := by omega
  have h2 : c + b - (c + a) = b - a := by omega
  rw [h2, h1]

theorem pySlice_zero (l : List α) (b : Nat) : pySlice l 0 b = l.take b := by
  simp [pySlice]

theorem length_pySlice_le (l : List α) (a bs : Nat) :
    (pySlice l a (a + bs)).length ≤ bs := by
  simp only [pySlice]
  exact le_trans (List.length_take_le _ _) (by omega)

theorem length_pyRange (stop step : Nat) :
    (pyRange stop step).length = (stop + step - 1) / step := by
  simp [pyRange]

/-- Consecutive `step`-wide slices at the offsets of `pyRange l.length step`
concatenate back to the whole list. -/
theorem range_slice_flatten (bs : Nat) (hbs : 0 < bs) :
    ∀ (n : Nat) (l : List α), (l.length + bs - 1) / bs = n →
      ((List.range n).map (fun k => pySlice l (k * bs) (k * bs + bs))).flatten = l := by
  intro n
  induction n with
  | zero =>
      intro l h
      have hlen : l.length = 0 := by
        by_contra hne
        have h1 : l.length + bs - 1 = (l.length - 1) + bs := by omega
        rw [h1, Nat.add_div_right _ hbs] at h
        exact Nat.succ_ne_zero _ h
      simp [List.length_eq_zero.mp hlen]
  | succ n ih =>
      intro l h
      have hlen : 1 ≤ l.length := by
        by_contra hne
        have h0 : l.length = 0 := by omega
        rw [h0] at h
        have hz : (0 + bs - 1) / bs = 0 := Nat.div_eq_of_lt (by omega)
        rw [hz] at h
        exact Nat.succ_ne_zero n h.symm
      have hsplit : l.length + bs - 1 = (l.length - 1) + bs := by omega
      rw [hsplit, Nat.add_div_right _ hbs] at h
      have hdiv : (l.length - 1) / bs = n := Nat.add_right_cancel h
      have htail : ((l.drop bs).length + bs - 1) / bs = n := by
        rw [List.length_drop]
        rcases le_or_lt l.length bs with hle | hlt
        · have h0 : l.length - bs = 0 := by omega
          rw [h0]
          have hz : (0 + bs - 1) / bs = 0 := Nat.div_eq_of_lt (by omega)
          have h1 : (l.length - 1) / bs = 0 := Nat.div_eq_of_lt (by omega)
          rw [hz, ← hdiv, h1]
        · have h1 : l.length - bs + bs - 1 = (l.length - 1 - bs) + bs := by omega
          rw [h1, Nat.add_div_right _ hbs]
          have h2 : l.length - 1 = (l.length - 1 - bs) + bs := by omega
          rw [h2, Nat.add_div_right _ hbs] at hdiv
          exact hdiv
      rw [List.range_succ_eq_map]
      simp only [List.map_cons, List.map_map, List.flatten_cons]
      have htrans : ((List.range n).map
            ((fun k => pySlice l (k * bs) (k * bs + bs)) ∘ (· + 1)))
          = (List.range n).map (fun k => pySlice (l.drop bs) (k * bs) (k * bs + bs)) := by
        refine List.map_congr_left (fun k _ => ?_)
        show pySlice l ((k + 1) * bs) ((k + 1) * bs + bs)
          = pySlice (l.drop bs) (k * bs) (k * bs + bs)
        have e1 : (k + 1) * bs = bs + k * bs := by ring
        have e2 : (k + 1) * bs + bs = bs + (k * bs + bs) := by ring
        rw [e2, e1, pySlice_shift]
      rw [htrans, ih (l.drop bs) htail]
      have hhead : pySlice l (0 * bs) (0 * bs + bs) = l.take bs := by
        simp [pySlice]
      rw [hhead, List.take_append_drop]

theorem pyRange_slice_flatten (bs : Nat) (hbs : 0 < bs) (l : List α) :
    ((pyRange l.length bs).map (fun i => pySlice l i (i + bs))).flatten = l := by
  have h := range_slice_flatten bs hbs ((l.length + bs - 1) / bs) l rfl
  simpa [pyRange, List.map_map, Function.comp] using h

theorem foldl_append_eq_flatten (g : α → List β) (l : List α) (acc : List β) :
    l.foldl (fun a x => a ++ g x) acc = acc ++ (l.map g).flatten := by
  induction l generalizing acc with
  | nil => simp
  | cons x xs ih => simp [ih, List.append_assoc]

/-! ## Lemmas on the chunker -/

theorem drop_pySlice (l : List α) (k a b : Nat) :
    (pySlice l a b).drop k = pySlice l (a + k) b := by
  simp only [pySlice, List.drop_take, List.drop_drop]
  have h2 : b - a - k = b - (a + k) := by omega
  rw [h2]

theorem chunkLoop_zero_eq (csize overlap : Nat) (text : List Char) (start : Nat) :
    DocumentProcessor.chunkLoop csize overlap text start 0 = [] := rfl

/-- One-step unfolding of the chunking loop. -/
theorem chunkLoop_succ_eq (csize overlap : Nat) (text : List Char) (start fuel : Nat) :
    DocumentProcessor.chunkLoop csize overlap text start (fuel + 1)
      = if start < text.length then
          if text.length ≤ start + csize then [text.drop start]
          else
            pySlice text start (DocumentProcessor.chunkEnd csize text start) ::
              DocumentProcessor.chunkLoop csize overlap text
                (DocumentProcessor.nextStart csize overlap text start) fuel
        else [] := rfl

theorem pySlice_append_drop (l : List α) (a b : Nat) (hab : a ≤ b) :
    pySlice l a b ++ l.drop b = l.drop a := by
  have h1 : l.drop b = (l.drop a).drop (b - a) := by
    rw [List.drop_drop]
    congr 1
    omega
  rw [pySlice, h1, List.take_append_drop]

/-- Bounds on the adjusted window end of one chunking iteration: it always
exceeds `start + overlap` and never passes `start + csize`, for the
parameter regime `overlap ≤ csize / 2` that the repository's configuration
(`1000` / `200`) satisfies. -/
theorem chunkEnd_bounds (csize overlap : Nat) (text : List Char) (start : Nat)
    (hc : 0 < csize) (ho : overlap ≤ csize / 2) :
    start + overlap < DocumentProcessor.chunkEnd csize text start ∧
      DocumentProcessor.chunkEnd csize text start ≤ start + csize := by
  have hwl : (pySlice text start (start + csize)).length ≤ csize :=
    length_pySlice_le text start csize
  have hls := pyRfindDotSpace_lt_length (pySlice text start (start + csize))
  have hlw := pyRfindChar_lt_length ' ' (pySlice text start (start + csize))
  simp only [DocumentProcessor.chunkEnd]
  split
  · next h1 => constructor <;> omega
  · next h1 =>
      split
      · next h2 => constructor <;> omega
      · next h2 => constructor <;> omega

theorem nextStart_eq (csize overlap : Nat) (text : List Char) (start : Nat)
    (hc : 0 < csize) (ho : overlap ≤ csize / 2) :
    DocumentProcessor.nextStart csize overlap text start
      = DocumentProcessor.chunkEnd csize text start - overlap := by
  have hb := chunkEnd_bounds csize overlap text start hc ho
  simp only [DocumentProcessor.nextStart]
  rw [if_pos (by omega)]

theorem nextStart_progress (csize overlap : Nat) (text : List Char) (start : Nat)
    (hc : 0 < csize) (ho : overlap ≤ csize / 2) :
    start < DocumentProcessor.nextStart csize overlap text start := by
  have hb := chunkEnd_bounds csize overlap text start hc ho
  rw [nextStart_eq csize overlap text start hc ho]
  omega

/-- The chunking loop is insensitive to extra fuel once the fuel covers the
remaining text length — i.e. the `while` loop always exits by itself. -/
theorem chunkLoop_fuel_succ (csize overlap : Nat) (text : List Char)
    (hc : 0 < csize) (ho : overlap ≤ csize / 2) :
    ∀ (fuel start : Nat), text.length ≤ start + fuel →
      DocumentProcessor.chunkLoop csize overlap text start (fuel + 1)
        = DocumentProcessor.chunkLoop csize overlap text start fuel := by
  intro fuel
  induction fuel with
  | zero =>
      intro start h
      conv_lhs => rw [chunkLoop_succ_eq]
      rw [if_neg (by omega), chunkLoop_zero_eq]
  | succ n ih =>
      intro start h
      conv_lhs => rw [chunkLoop_succ_eq]
      conv_rhs => rw [chunkLoop_succ_eq]
      by_cases hlt : start < text.length
      · by_cases hbr : text.length ≤ start + csize
        · rw [if_pos hlt, if_pos hlt, if_pos hbr, if_pos hbr]
        · have hp := nextStart_progress csize overlap text start hc ho
          rw [if_pos hlt, if_pos hlt, if_neg hbr, if_neg hbr,
            ih (DocumentProcessor.nextStart csize overlap text start) (by omega)]
      · rw [if_neg hlt, if_neg hlt]

/-- Dropping each chunk's `overlap`-character prefix and concatenating, the
loop started at `start` yields exactly the text from `start + overlap` on. -/
theorem chunkLoop_drop_flatten (csize overlap : Nat) (text : List Char)
    (hc : 0 < csize) (ho : overlap ≤ csize / 2) :
    ∀ (fuel start : Nat), text.length ≤ start + fuel →
      ((DocumentProcessor.chunkLoop csize overlap text start fuel).map
          (List.drop overlap)).flatten = text.drop (start + overlap) := by
  intro fuel
  induction fuel with
  | zero =>
      intro start h
      rw [chunkLoop_zero_eq]
      simp only [List.map_nil, List.flatten_nil]
      exact (List.drop_eq_nil_of_le (by omega)).symm
  | succ n ih =>
      intro start h
      rw [chunkLoop_succ_eq]
      by_cases hlt : start < text.length
      · rw [if_pos hlt]
        by_cases hbr : text.length ≤ start + csize
        · rw [if_pos hbr]
          simp only [List.map_cons, List.map_nil, List.flatten_cons, List.flatten_nil,
            List.append_nil, List.drop_drop]
        · rw [if_neg hbr]
          have hb := chunkEnd_bounds csize overlap text start hc ho
          have hns := nextStart_eq csize overlap text start hc ho
          have hp := nextStart_progress csize overlap text start hc ho
          simp only [List.map_cons, List.flatten_cons]
          rw [ih (DocumentProcessor.nextStart csize overlap text start) (by omega), hns]
          have he2 : DocumentProcessor.chunkEnd csize text start - overlap + overlap
              = DocumentProcessor.chunkEnd csize text start := by omega
          rw [he2, drop_pySlice]
          exact pySlice_append_drop text (start + overlap) _ (by omega)
      · rw [if_neg hlt]
        simp only [List.map_nil, List.flatten_nil]
        exact (List.drop_eq_nil_of_le (by omega)).symm

theorem getLast?_cons_of_ne_nil (a : α) (l : List α) (h : l ≠ []) :
    (a :: l).getLast? = l.getLast? := by
  cases l with
  | nil => exact absurd rfl h
  | cons b m => rw [List.getLast?_cons_cons]

/-- The chunking loop's final chunk is a suffix of the text starting strictly
inside it: `text[s:]` for some `s < len(text)`. -/
theorem chunkLoop_getLast (csize overlap : Nat) (text : List Char)
    (hc : 0 < csize) (ho : overlap ≤ csize / 2) :
    ∀ (fuel start : Nat), start < text.length → text.length ≤ start + fuel →
      ∃ s, s < text.length ∧
        (DocumentProcessor.chunkLoop csize overlap text start fuel).getLast?
          = some (text.drop s) := by
  intro fuel
  induction fuel with
  | zero =>
      intro start h1 h2
      omega
  | succ n ih =>
      intro start h1 h2
      rw [chunkLoop_succ_eq, if_pos h1]
      by_cases hbr : text.length ≤ start + csize
      · rw [if_pos hbr]
        exact ⟨start, h1, by simp⟩
      · rw [if_neg hbr]
        have hb := chunkEnd_bounds csize overlap text start hc ho
        have hns := nextStart_eq csize overlap text start hc ho
        have hp := nextStart_progress csize overlap text start hc ho
        have hlt2 : DocumentProcessor.nextStart csize overlap text start < text.length := by
          rw [hns]
          omega
        obtain ⟨s, hs, hlast⟩ :=
          ih (DocumentProcessor.nextStart csize overlap text start) hlt2 (by omega)
        have hnil : DocumentProcessor.chunkLoop csize overlap text
            (DocumentProcessor.nextStart csize overlap text start) n ≠ [] := by
          intro h0
          rw [h0] at hlast
          simp at hlast
        refine ⟨s, hs, ?_⟩
        rw [getLast?_cons_of_ne_nil _ _ hnil]
        exact hlast

/-! ## Claim theorems: chunker -/

/-- C6: under the configured parameter regime (`0 < chunk_size`,
`chunk_overlap ≤ chunk_size / 2`, satisfied by `1000` / `200`) the
`_chunk_text` loop makes strictly monotonic forward progress on every
iteration, the loop is insensitive to extra fuel (it always exits on its
own within `len(text)` iterations), and the final produced chunk is the
suffix `text[s:]` for some `s < len(text)` — no trailing text is dropped. -/
theorem chunk_text_terminates (csize overlap : Nat) (text : List Char)
    (hc : 0 < csize) (ho : overlap ≤ csize / 2) :
    (∀ start, start < DocumentProcessor.nextStart csize overlap text start) ∧
    (∀ extra, DocumentProcessor.chunkLoop csize overlap text 0 (text.length + extra)
        = DocumentProcessor.chunkLoop csize overlap text 0 text.length) ∧
    (text ≠ [] → ∃ s, s < text.length ∧
      (DocumentProcessor.chunk_text csize overlap text).getLast?
        = some (text.drop s)) := by
  refine ⟨fun start => nextStart_progress csize overlap text start hc ho, ?_, ?_⟩
  · intro extra
    induction extra with
    | zero => rfl
    | succ n ihe =>
        have hsplit : text.length + (n + 1) = (text.length + n) + 1 := by omega
        rw [hsplit,
          chunkLoop_fuel_succ csize overlap text hc ho (text.length + n) 0 (by omega), ihe]
  · intro hne
    have hpos : 0 < text.length := List.length_pos.mpr hne
    rw [DocumentProcessor.chunk_text]
    split
    · exact ⟨0, hpos, by simp⟩
    · next hgt =>
      exact chunkLoop_getLast csize overlap text hc ho text.length 0 hpos (by omega)

/-- Witness for C6 at `chunk_size = 4`, `chunk_overlap = 1` on `"abcdef"`. -/
theorem chunk_text_terminates_witness :
    0 < 4 ∧ (1 : Nat) ≤ 4 / 2 ∧
    ((∀ start, start < DocumentProcessor.nextStart 4 1 "abcdef".toList start) ∧
    (∀ extra, DocumentProcessor.chunkLoop 4 1 "abcdef".toList 0 ("abcdef".toList.length + extra)
        = DocumentProcessor.chunkLoop 4 1 "abcdef".toList 0 "abcdef".toList.length) ∧
    ("abcdef".toList ≠ [] → ∃ s, s < "abcdef".toList.length ∧
      (DocumentProcessor.chunk_text 4 1 "abcdef".toList).getLast?
        = some ("abcdef".toList.drop s))) :=
  ⟨by decide, by decide, chunk_text_terminates 4 1 "abcdef".toList (by decide) (by decide)⟩

/-- C7: for every text, concatenating the chunks of `_chunk_text` with each
successor chunk's `chunk_overlap`-character overlapping prefix removed
reconstructs exactly the original text (parameter regime as configured:
`0 < chunk_size`, `chunk_overlap ≤ chunk_size / 2`). -/
theorem chunk_text_reconstructs (csize overlap : Nat) (text : List Char)
    (hc : 0 < csize) (ho : overlap ≤ csize / 2) :
    DocumentProcessor.removeOverlapPrefixes overlap
        (DocumentProcessor.chunk_text csize overlap text)
      = text := by
  rw [DocumentProcessor.chunk_text]
  split
  · simp [DocumentProcessor.removeOverlapPrefixes]
  · next hgt =>
    obtain ⟨m, hm⟩ : ∃ m, text.length = m + 1 := ⟨text.length - 1, by omega⟩
    rw [hm, chunkLoop_succ_eq]
    rw [if_pos (by omega), if_neg (by omega)]
    simp only [DocumentProcessor.removeOverlapPrefixes]
    have hb := chunkEnd_bounds csize overlap text 0 hc ho
    have hns := nextStart_eq csize overlap text 0 hc ho
    have hp := nextStart_progress csize overlap text 0 hc ho
    rw [chunkLoop_drop_flatten csize overlap text hc ho m
      (DocumentProcessor.nextStart csize overlap text 0) (by omega), hns]
    have he2 : DocumentProcessor.chunkEnd csize text 0 - overlap + overlap
        = DocumentProcessor.chunkEnd csize text 0 := by omega
    rw [he2, pySlice_zero, List.take_append_drop]

/-- Witness for C7 at `chunk_size = 4`, `chunk_overlap = 1` on a 12-character
text containing a sentence terminator. -/
theorem chunk_text_reconstructs_witness :
    0 < 4 ∧ (1 : Nat) ≤ 4 / 2 ∧
    DocumentProcessor.removeOverlapPrefixes 1
        (DocumentProcessor.chunk_text 4 1 "ab cd. ef gh".toList)
      = "ab cd. ef gh".toList :=
  ⟨by decide, by decide, chunk_text_reconstructs 4 1 "ab cd. ef gh".toList (by decide) (by decide)⟩

/-! ## Evaluating the chunker on the concrete input `c3Text` -/

theorem pyRfindChar_cons (c a : Char) (rest : List Char) :
    pyRfindChar c (a :: rest)
      = if 0 ≤ pyRfindChar c rest then pyRfindChar c rest + 1
        else if a = c then 0 else -1 := rfl

theorem pyRfindDotSpace_cons (a : Char) (rest : List Char) :
    pyRfindDotSpace (a :: rest)
      = if 0 ≤ pyRfindDotSpace rest then pyRfindDotSpace rest + 1
        else if a = '.' ∧ rest.head? = some ' ' then 0 else -1 := rfl

theorem pyRfindChar_replicate (c a : Char) (h : a ≠ c) (n : Nat) :
    pyRfindChar c (List.replicate n a) = -1 := by
  induction n with
  | zero => rfl
  | succ n ih =>
      rw [List.replicate_succ, pyRfindChar_cons, ih,
        if_neg (by decide), if_neg h]

theorem pyRfindDotSpace_replicate (a : Char) (h : a ≠ '.') (n : Nat) :
    pyRfindDotSpace (List.replicate n a) = -1 := by
  induction n with
  | zero => rfl
  | succ n ih =>
      rw [List.replicate_succ, pyRfindDotSpace_cons, ih,
        if_neg (by decide), if_neg (fun hcon => absurd hcon.1 h)]

theorem pyRfindChar_append_right (c : Char) (l r : List Char)
    (h : 0 ≤ pyRfindChar c r) :
    pyRfindChar c (l ++ r) = l.length + pyRfindChar c r := by
  induction l with
  | nil => simp
  | cons a l ih =>
      rw [List.cons_append, pyRfindChar_cons, ih, if_pos (by omega)]
      simp only [List.length_cons]
      push_cast
      ring

theorem pyRfindDotSpace_append_right (l r : List Char)
    (h : 0 ≤ pyRfindDotSpace r) :
    pyRfindDotSpace (l ++ r) = l.length + pyRfindDotSpace r := by
  induction l with
  | nil => simp
  | cons a l ih =>
      rw [List.cons_append, pyRfindDotSpace_cons, ih, if_pos (by omega)]
      simp only [List.length_cons]
      push_cast
      ring

theorem c3Text_length : c3Text.length = 2000 := by
  rw [c3Text, List.length_append, List.length_replicate, List.length_cons,
    List.length_cons, List.length_replicate]

theorem c3_window1 : pySlice c3Text 0 (0 + 1000) = List.replicate 1000 'a' := by
  rw [pySlice, c3Text]
  simp only [List.drop_zero, Nat.zero_add, Nat.sub_zero]
  rw [List.take_append_of_le_length (by rw [List.length_replicate]; norm_num),
    List.take_replicate]
  congr 1

theorem c3_window2 : pySlice c3Text 800 (800 + 1000)
    = List.replicate 600 'a' ++ '.' :: ' ' :: List.replicate 398 'a' := by
  rw [pySlice, c3Text]
  rw [List.drop_append_of_le_length (by rw [List.length_replicate]; norm_num),
    List.drop_replicate]
  norm_num
  have htake : List.take 400 ('.' :: ' ' :: List.replicate 598 'a')
      = '.' :: ' ' :: List.replicate 398 'a' := by
    rw [show (400 : Nat) = 399 + 1 from rfl, List.take_succ_cons,
      show (399 : Nat) = 398 + 1 from rfl, List.take_succ_cons, List.take_replicate,
      show (398 ⊓ 598 : Nat) = 398 from by omega]
  rw [show (1000 : Nat) = (List.replicate 600 'a').length + 400 by
        rw [List.length_replicate]]
  rw [List.take_append, htake]

theorem rfindDS_space_tail :
    pyRfindDotSpace (' ' :: List.replicate 398 'a') = -1 := by
  rw [pyRfindDotSpace_cons, pyRfindDotSpace_replicate 'a' (by decide),
    if_neg (by decide), if_neg (fun hcon => absurd hcon.1 (by decide))]

theorem rfindDS_dot_tail :
    pyRfindDotSpace ('.' :: ' ' :: List.replicate 398 'a') = 0 := by
  rw [pyRfindDotSpace_cons, rfindDS_space_tail, if_neg (by decide),
    if_pos ⟨rfl, rfl⟩]

theorem rfindChar_dot_tail :
    pyRfindChar ' ' ('.' :: ' ' :: List.replicate 398 'a') = 1 := by
  have h1 : pyRfindChar ' ' (List.replicate 398 'a') = -1 :=
    pyRfindChar_replicate ' ' 'a' (by decide) 398
  have h2 : pyRfindChar ' ' (' ' :: List.replicate 398 'a') = 0 := by
    rw [pyRfindChar_cons, h1, if_neg (by decide), if_pos rfl]
  rw [pyRfindChar_cons, h2, if_pos (by decide)]
  norm_num

theorem c3_rfindDS : pyRfindDotSpace (pySlice c3Text 800 (800 + 1000)) = 600 := by
  rw [c3_window2, pyRfindDotSpace_append_right _ _ (by rw [rfindDS_dot_tail]),
    rfindDS_dot_tail, List.length_replicate]
  norm_num

theorem c3_rfindChar : pyRfindChar ' ' (pySlice c3Text 800 (800 + 1000)) = 601 := by
  rw [c3_window2, pyRfindChar_append_right _ _ _ (by rw [rfindChar_dot_tail]; decide),
    rfindChar_dot_tail, List.length_replicate]
  norm_num

theorem c3_chunkEnd0 : DocumentProcessor.chunkEnd 1000 c3Text 0 = 1000 := by
  have h1 : pyRfindDotSpace (pySlice c3Text 0 (0 + 1000)) = -1 := by
    rw [c3_window1]
    exact pyRfindDotSpace_replicate 'a' (by decide) 1000
  have h2 : pyRfindChar ' ' (pySlice c3Text 0 (0 + 1000)) = -1 := by
    rw [c3_window1]
    exact pyRfindChar_replicate ' ' 'a' (by decide) 1000
  simp only [DocumentProcessor.chunkEnd]
  rw [h1, h2, if_neg (by decide), if_neg (by decide)]

theorem c3_chunkEnd800 : DocumentProcessor.chunkEnd 1000 c3Text 800 = 1800 := by
  simp only [DocumentProcessor.chunkEnd]
  rw [c3_rfindDS, c3_rfindChar, if_neg (by decide), if_neg (by decide)]

theorem c3_next0 : DocumentProcessor.nextStart 1000 200 c3Text 0 = 800 := by
  simp only [DocumentProcessor.nextStart, c3_chunkEnd0]
  rw [if_pos (by decide)]

theorem c3_next800 : DocumentProcessor.nextStart 1000 200 c3Text 800 = 1600 := by
  simp only [DocumentProcessor.nextStart, c3_chunkEnd800]
  rw [if_pos (by decide)]

theorem c3_chunks : DocumentProcessor.chunk_text 1000 200 c3Text
    = [pySlice c3Text 0 1000, pySlice c3Text 800 1800, c3Text.drop 1600] := by
  rw [DocumentProcessor.chunk_text, if_neg (by rw [c3Text_length]; norm_num),
    c3Text_length]
  rw [show (2000 : Nat) = 1999 + 1 from by norm_num, chunkLoop_succ_eq]
  rw [if_pos (by rw [c3Text_length]; norm_num),
    if_neg (by rw [c3Text_length]; norm_num), c3_chunkEnd0, c3_next0]
  rw [show (1999 : Nat) = 1998 + 1 from by norm_num, chunkLoop_succ_eq]
  rw [if_pos (by rw [c3Text_length]; norm_num),
    if_neg (by rw [c3Text_length]; norm_num), c3_chunkEnd800, c3_next800]
  rw [show (1998 : Nat) = 1997 + 1 from by norm_num, chunkLoop_succ_eq]
  rw [if_pos (by rw [c3Text_length]; norm_num),
    if_pos (by rw [c3Text_length]; norm_num)]

theorem c3_chunk2_len : (pySlice c3Text 800 1800).length = 1000 := by
  rw [pySlice]
  simp [c3Text_length]

/-- C3 (code-bug evidence): on the 2000-character `c3Text` with the
configured `chunk_size = 1000`, `chunk_overlap = 200`, the `_chunk_text`
run reaches the window `text[800:1800]` — a window whose end does not reach
the end of the text — in which the last sentence terminator `". "` sits at
window-relative position 600, strictly inside the window's second half
(`600 > 1000 / 2`); yet the produced chunk is the hard cut `text[800:1800]`
of length exactly 1000, not the sentence-boundary cut at `800 + 600 + 1`
the claim requires.  The source compares the window-relative `rfind` result
against the absolute offset `start + chunk_size // 2`. -/
theorem chunk_text_second_half_bug :
    c3Text.length = 2000 ∧
    DocumentProcessor.chunk_text 1000 200 c3Text
      = [pySlice c3Text 0 1000, pySlice c3Text 800 1800, c3Text.drop 1600] ∧
    pyRfindDotSpace (pySlice c3Text 800 (800 + 1000)) = 600 ∧
    (1000 / 2 : Nat) < 600 ∧
    (pySlice c3Text 800 1800).length = 1000 :=
  ⟨c3Text_length, c3_chunks, c3_rfindDS, by norm_num, c3_chunk2_len⟩

/-! ## Claim theorems: queue and batching -/

/-- C2 (code evidence): `retry_task` RPUSHes onto the same end that `BRPOP`
consumes from, so the requeued job is the very next one `get_next_task`
delivers — before every job enqueued (LPUSHed) earlier, not after them.  In
particular, with one fresh pending job `0` enqueued before the requeue of
job `1`, the next dequeue returns the requeued job `1`. -/
theorem retry_task_jumps_queue :
    (∀ (q : List Nat) (r : Nat),
      (QueueService.get_next_task (QueueService.retry_task r q)).1 = some r) ∧
    QueueService.get_next_task
        (QueueService.retry_task 1 (QueueService.add_indexing_task 0 ([] : List Nat)))
      = (some 1, [0]) := by
  constructor
  · intro q r
    simp [QueueService.get_next_task, QueueService.retry_task]
  · simp [QueueService.get_next_task, QueueService.retry_task,
      QueueService.add_indexing_task]

/-- C8: `_get_embeddings` issues `⌈N/16⌉` embedding-service calls of at most
16 inputs each, the concatenation of the issued batches is exactly the input
list (no input dropped or reordered across batches), and under the
service contract (one embedding per input, in input order) the returned
list has the same length and order as the input. -/
theorem get_embeddings_batches_correct {α β : Type} (texts : List α) :
    (∀ f : α → β, DocumentProcessor.get_embeddings (List.map f) texts = texts.map f) ∧
    (DocumentProcessor.embeddingBatches texts).length = (texts.length + 16 - 1) / 16 ∧
    (∀ b ∈ DocumentProcessor.embeddingBatches texts, b.length ≤ 16) ∧
    (DocumentProcessor.embeddingBatches texts).flatten = texts := by
  have hflat : (DocumentProcessor.embeddingBatches texts).flatten = texts :=
    pyRange_slice_flatten 16 (by omega) texts
  refine ⟨?_, ?_, ?_, hflat⟩
  · intro f
    rw [DocumentProcessor.get_embeddings, foldl_append_eq_flatten, List.nil_append,
      ← List.map_flatten, hflat]
  · rw [DocumentProcessor.embeddingBatches, List.length_map, length_pyRange]
  · intro b hb
    rw [DocumentProcessor.embeddingBatches, List.mem_map] at hb
    obtain ⟨i, _, rfl⟩ := hb
    exact length_pySlice_le texts i 16

/-- C9 counterexample: on the empty point list, `_batch_upsert_points`
takes the `total_points <= batch_size` branch and issues one upsert call
(with an empty batch), not `⌈0/100⌉ = 0` calls as the claim states. -/
theorem batch_upsert_empty_counterexample :
    (DocumentProcessor.batch_upsert_points ([] : List Nat)).length
      ≠ (0 + 100 - 1) / 100 := by
  decide

/-- C9 (amended): for every nonempty point list, `_batch_upsert_points`
issues `⌈N/100⌉` upsert calls of at most 100 points each, and the
concatenation of the issued batches (in order) is exactly the input list —
no duplicates or omissions. -/
theorem batch_upsert_points_correct {α : Type} (points : List α) (hne : points ≠ []) :
    (DocumentProcessor.batch_upsert_points points).length
        = (points.length + 100 - 1) / 100 ∧
    (∀ b ∈ DocumentProcessor.batch_upsert_points points, b.length ≤ 100) ∧
    (DocumentProcessor.batch_upsert_points points).flatten = points := by
  have hpos : 1 ≤ points.length := List.length_pos.mpr hne
  rw [DocumentProcessor.batch_upsert_points, DocumentProcessor.batch_size]
  split
  · refine ⟨by simp; omega, ?_, by simp⟩
    intro b hb
    rw [List.mem_singleton] at hb
    subst hb
    omega
  · refine ⟨?_, ?_, pyRange_slice_flatten 100 (by omega) points⟩
    · rw [List.length_map, length_pyRange]
    · intro b hb
      rw [List.mem_map] at hb
      obtain ⟨i, _, rfl⟩ := hb
      exact length_pySlice_le points i 100

/-- Witness for C9's amended theorem at the one-point list `[3]`. -/
theorem batch_upsert_points_correct_witness :
    ([3] : List Nat) ≠ [] ∧
    ((DocumentProcessor.batch_upsert_points ([3] : List Nat)).length
        = (([3] : List Nat).length + 100 - 1) / 100 ∧
    (∀ b ∈ DocumentProcessor.batch_upsert_points ([3] : List Nat), b.length ≤ 100) ∧
    (DocumentProcessor.batch_upsert_points ([3] : List Nat)).flatten = [3]) :=
  ⟨by decide, batch_upsert_points_correct [3] (by decide)⟩

/-! ## Lemmas on the document store and the worker -/

theorem dbGet_dbUpdate_self (db : DocDb) (docId : Nat) (f : DocumentRec → DocumentRec) :
    dbGet (dbUpdate db docId f) docId = (dbGet db docId).map f := by
  induction db with
  | nil => rfl
  | cons p rest ih =>
      simp only [dbUpdate] at ih ⊢
      by_cases h : p.1 = docId
      · simp [dbGet, h]
      · simp [dbGet, h, ih]

theorem dbGet_dbUpdate_other (db : DocDb) (docId j : Nat)
    (f : DocumentRec → DocumentRec) (h : j ≠ docId) :
    dbGet (dbUpdate db docId f) j = dbGet db j := by
  induction db with
  | nil => rfl
  | cons p rest ih =>
      simp only [dbUpdate] at ih ⊢
      by_cases hd : p.1 = docId
      · simp [dbGet, hd, Ne.symm h, ih]
      · by_cases hj : p.1 = j
        · simp [dbGet, hd, hj, h]
        · simp [dbGet, hd, hj, ih]

/-- The `index` branch of `process_indexing_task` when the
`process_document` invocation raises: the document is committed to
PROCESSING, the exception is caught, the document is re-fetched and
committed to FAILED, and the vector-store state is whatever the failed
invocation left. -/
theorem process_index_error_run {σ : Type}
    (callPD : σ → Except Worker.PyExn Worker.PDResult × σ) (callDel : σ → Bool × σ)
    (db : DocDb) (vec : σ) (docId : Nat) (doc : DocumentRec) (e : Worker.PyExn) (vec1 : σ)
    (hpos : 0 < docId) (hget : dbGet db docId = some doc)
    (hexn : callPD vec = (.error e, vec1)) :
    Worker.process_indexing_task callPD callDel ⟨some docId, some "index", none⟩ db vec
      = (dbUpdate (dbUpdate db docId (fun d => { d with status := .processing })) docId
          (fun d => { d with status := .failed }), vec1) := by
  have htruthy : (pyTruthyInt (some docId) && Worker.pyTruthyStr (some "index")) = true := by
    simp [pyTruthyInt, Worker.pyTruthyStr]
    omega
  have hget1 : dbGet (dbUpdate db docId (fun d => { d with status := .processing })) docId
      = some { doc with status := .processing } := by
    rw [dbGet_dbUpdate_self, hget]
    rfl
  simp only [Worker.process_indexing_task, htruthy, if_true, hget, hexn, hget1,
    if_pos rfl]

/-! ## Claim theorems: worker -/

/-- C1: for every dequeued `index` job whose `document_id` resolves to an
existing document record, the `process_document` call site raises
`TypeError` before the function body can run (two positional arguments
against the three-parameter signature `file_path, document_id, user_id`) —
whatever that body would have computed — so the handler's `except` path
commits status FAILED, the vector store is left untouched (no vectors
stored), and the COMPLETED branch is unreachable for every such job. -/
theorem index_job_always_fails {σ : Type}
    (body : σ → Except Worker.PyExn Worker.PDResult × σ) (callDel : σ → Bool × σ)
    (db : DocDb) (vec : σ) (docId : Nat) (doc : DocumentRec)
    (hpos : 0 < docId) (hget : dbGet db docId = some doc) :
    Worker.workerProcessDocumentCall body vec = (.error .typeError, vec) ∧
    (Worker.process_indexing_task (Worker.workerProcessDocumentCall body) callDel
        ⟨some docId, some "index", none⟩ db vec).2 = vec ∧
    (dbGet (Worker.process_indexing_task (Worker.workerProcessDocumentCall body) callDel
        ⟨some docId, some "index", none⟩ db vec).1 docId).map DocumentRec.status
      = some ProcessingStatus.failed := by
  have hcall : Worker.workerProcessDocumentCall body vec = (.error .typeError, vec) := by
    simp only [Worker.workerProcessDocumentCall, Worker.pyCallWithArity]
    rw [if_neg (by decide)]
  have hrun := process_index_error_run (Worker.workerProcessDocumentCall body) callDel
    db vec docId doc .typeError vec hpos hget hcall
  refine ⟨hcall, by rw [hrun], ?_⟩
  rw [hrun]
  simp [dbGet_dbUpdate_self, hget]

/-- Witness for C1: a one-row store holding a pending document with id 1. -/
theorem index_job_always_fails_witness :
    0 < 1 ∧ dbGet [(1, doc0)] 1 = some doc0 ∧
    (Worker.workerProcessDocumentCall (fun u => (.ok (true, .inl 3), u)) () = (.error .typeError, ()) ∧
    (Worker.process_indexing_task
        (Worker.workerProcessDocumentCall (fun u => (.ok (true, .inl 3), u)))
        (fun u => (true, u)) ⟨some 1, some "index", none⟩ [(1, doc0)] ()).2 = () ∧
    (dbGet (Worker.process_indexing_task
        (Worker.workerProcessDocumentCall (fun u => (.ok (true, .inl 3), u)))
        (fun u => (true, u)) ⟨some 1, some "index", none⟩ [(1, doc0)] ()).1 1).map
        DocumentRec.status = some ProcessingStatus.failed) :=
  ⟨by decide, by rfl,
    index_job_always_fails (fun u => (.ok (true, .inl 3), u)) (fun u => (true, u))
      [(1, doc0)] () 1 doc0 (by decide) (by rfl)⟩

/-- C5: for an `index` job whose document record is found, if the
`process_document` invocation raises any exception, the handler leaves that
document's final status FAILED (so it is not left in PROCESSING), leaves
every other document's record untouched, and the worker main loop continues
to the next iteration rather than terminating. -/
theorem index_exception_fails_loop_continues {σ : Type}
    (callPD : σ → Except Worker.PyExn Worker.PDResult × σ) (callDel : σ → Bool × σ)
    (db : DocDb) (vec : σ) (docId : Nat) (doc : DocumentRec) (e : Worker.PyExn) (vec1 : σ)
    (hpos : 0 < docId) (hget : dbGet db docId = some doc)
    (hexn : callPD vec = (.error e, vec1)) :
    (dbGet (Worker.process_indexing_task callPD callDel
        ⟨some docId, some "index", none⟩ db vec).1 docId).map DocumentRec.status
      = some ProcessingStatus.failed ∧
    (∀ j, j ≠ docId →
      dbGet (Worker.process_indexing_task callPD callDel
        ⟨some docId, some "index", none⟩ db vec).1 j = dbGet db j) ∧
    (Worker.worker_main_step callPD callDel (.task ⟨some docId, some "index", none⟩) db vec).1
      = Worker.LoopSignal.continues := by
  have hrun := process_index_error_run callPD callDel db vec docId doc e vec1 hpos hget hexn
  refine ⟨?_, ?_, rfl⟩
  · rw [hrun]
    simp [dbGet_dbUpdate_self, hget]
  · intro j hj
    rw [hrun]
    rw [dbGet_dbUpdate_other _ _ _ _ hj, dbGet_dbUpdate_other _ _ _ _ hj]

/-- Witness for C5: a runtime exception during processing of document 1. -/
theorem index_exception_fails_loop_continues_witness :
    0 < 1 ∧ dbGet [(1, doc0)] 1 = some doc0 ∧
    ((fun u => ((.error (.runtime "boom") : Except Worker.PyExn Worker.PDResult), u)) ()
        = (.error (.runtime "boom"), ()) ∧
    ((dbGet (Worker.process_indexing_task
        (fun u => ((.error (.runtime "boom") : Except Worker.PyExn Worker.PDResult), u))
        (fun u => (true, u)) ⟨some 1, some "index", none⟩ [(1, doc0)] ()).1 1).map
        DocumentRec.status = some ProcessingStatus.failed ∧
    (∀ j, j ≠ 1 →
      dbGet (Worker.process_indexing_task
        (fun u => ((.error (.runtime "boom") : Except Worker.PyExn Worker.PDResult), u))
        (fun u => (true, u)) ⟨some 1, some "index", none⟩ [(1, doc0)] ()).1 j
        = dbGet [(1, doc0)] j) ∧
    (Worker.worker_main_step
        (fun u => ((.error (.runtime "boom") : Except Worker.PyExn Worker.PDResult), u))
        (fun u => (true, u)) (.task ⟨some 1, some "index", none⟩) [(1, doc0)] ()).1
      = Worker.LoopSignal.continues)) :=
  ⟨by decide, by rfl, by rfl,
    index_exception_fails_loop_continues
      (fun u => ((.error (.runtime "boom") : Except Worker.PyExn Worker.PDResult), u))
      (fun u => (true, u)) [(1, doc0)] () 1 doc0 (.runtime "boom") ()
      (by decide) (by rfl) (by rfl)⟩

/-! ## Claim theorems: owner isolation -/

/-- Every point the Qdrant call inside `_search_relevant_documents` selects
under a truthy owner scope carries that owner's id in its payload. -/
theorem searchSelectedPoints_owner (stored : List RAGService.VecPoint)
    (score : RAGService.VecPoint → ℚ) (a : Nat) (ha : a ≠ 0) (top_k : Option Nat) :
    ∀ p ∈ RAGService.searchSelectedPoints stored score (some a) top_k,
      p.user_id = a := by
  intro p hp
  have hflt : (if pyTruthyInt (some a) then some a else none) = some a := by
    rw [if_pos (by simp [pyTruthyInt]; omega)]
  simp only [RAGService.searchSelectedPoints] at hp
  simp only [hflt] at hp
  simp only [RAGService.qdrantSearch] at hp
  have hp2 := List.mem_of_mem_take hp
  rw [List.mem_mergeSort, List.mem_filter] at hp2
  have := hp2.2
  simp only [Bool.and_eq_true, beq_iff_eq] at this
  exact this.1

/-- C4 (amended): for every truthy owner scope `A ≠ 0` and every owner
`B ≠ A`, each document `_search_relevant_documents` returns under scope `A`
arises from a stored point whose payload `user_id` equals `A` — in
particular from no point owned by `B`. -/
theorem search_relevant_documents_owner_isolated (stored : List RAGService.VecPoint)
    (score : RAGService.VecPoint → ℚ) (a b : Nat) (k : Option Nat)
    (ha : a ≠ 0) (hab : b ≠ a) :
    ∀ d ∈ RAGService.search_relevant_documents stored score (some a) k,
      ∃ p, p ∈ stored ∧ p.user_id = a ∧ p.user_id ≠ b
        ∧ d = RAGService.docOfPoint score p := by
  intro d hd
  rw [RAGService.search_relevant_documents, List.mem_map] at hd
  obtain ⟨p, hpmem, rfl⟩ := hd
  rw [List.mem_filter] at hpmem
  have howner := searchSelectedPoints_owner stored score a ha k p hpmem.1
  have hstored : p ∈ stored := by
    have hp := hpmem.1
    simp only [RAGService.searchSelectedPoints, RAGService.qdrantSearch] at hp
    have hp2 := List.mem_of_mem_take hp
    rw [List.mem_mergeSort, List.mem_filter] at hp2
    exact hp2.1
  exact ⟨p, hstored, howner, by omega, rfl⟩

/-- Witness for C4's amended theorem: owner scope `A = 1`, `B = 2`, on a
store holding one point owned by 1. -/
theorem search_relevant_documents_owner_isolated_witness :
    (1 : Nat) ≠ 0 ∧ (2 : Nat) ≠ 1 ∧
    (∀ d ∈ RAGService.search_relevant_documents [cexPoint] (fun _ => 1) (some 1) none,
      ∃ p, p ∈ [cexPoint] ∧ p.user_id = 1 ∧ p.user_id ≠ 2
        ∧ d = RAGService.docOfPoint (fun _ => 1) p) :=
  ⟨by decide, by decide,
    search_relevant_documents_owner_isolated [cexPoint] (fun _ => 1) 1 2 none
      (by decide) (by decide)⟩

/-- C4 counterexample: with distinct owner ids `A = 0` and `B = 1`, the
search scoped to `user_id = 0` attaches no filter (`if user_id:` is falsy
for 0) and returns the document of the stored point owned by `B = 1` — the
claim as stated fails at this input. -/
theorem search_owner_zero_leak :
    (0 : Nat) ≠ 1 ∧
    cexPoint.user_id = 1 ∧
    RAGService.search_relevant_documents [cexPoint] (fun _ => 1) (some 0) none
      = [RAGService.docOfPoint (fun _ => 1) cexPoint] := by
  refine ⟨by decide, rfl, ?_⟩
  have hth : RAGService.RAG_SEARCH_SCORE_THRESHOLD ≤ (1 : ℚ) := by
    rw [RAGService.RAG_SEARCH_SCORE_THRESHOLD]
    norm_num
  simp [RAGService.search_relevant_documents, RAGService.searchSelectedPoints,
    RAGService.qdrantSearch, pyTruthyInt, RAGService.RAG_SEARCH_TOP_K,
    List.mergeSort_singleton, hth, cexPoint]

/-! ## Claim theorems: query short-circuit -/

/-- C10: when the retrieval step returns no documents, `query_with_context`
answers with the fixed no-relevant-documents message without any
completion-service call, and `query_with_context_streaming` yields exactly
one fragment — that fixed message — and ends. -/
theorem query_no_docs_short_circuit (complete : List RAGService.ChatMsg → String)
    (streamChunks : List RAGService.ChatMsg → List String)
    (stored : List RAGService.VecPoint) (score : RAGService.VecPoint → ℚ)
    (question : String) (history : List RAGService.ChatMsg) (user_id : Option Nat)
    (h : RAGService.search_relevant_documents stored score user_id none = []) :
    RAGService.query_with_context complete stored score question history user_id
      = { answer := RAGService.NO_RELEVANT_DOCS_MSG, completion_calls := 0 } ∧
    RAGService.query_with_context_streaming streamChunks stored score question history user_id
      = [RAGService.NO_RELEVANT_DOCS_MSG] := by
  constructor
  · simp [RAGService.query_with_context, h]
  · simp [RAGService.query_with_context_streaming, h]

/-- Witness for C10 on an empty vector store. -/
theorem query_no_docs_short_circuit_witness :
    RAGService.search_relevant_documents [] (fun _ => 0) none none = [] ∧
    (RAGService.query_with_context (fun _ => "") [] (fun _ => 0) "q" [] none
      = { answer := RAGService.NO_RELEVANT_DOCS_MSG, completion_calls := 0 } ∧
    RAGService.query_with_context_streaming (fun _ => []) [] (fun _ => 0) "q" [] none
      = [RAGService.NO_RELEVANT_DOCS_MSG]) := by
  have h : RAGService.search_relevant_documents [] (fun _ => 0) none none = [] := by
    simp [RAGService.search_relevant_documents, RAGService.searchSelectedPoints,
      RAGService.qdrantSearch]
  exact ⟨h, query_no_docs_short_circuit (fun _ => "") (fun _ => []) [] (fun _ => 0) "q" [] none h⟩

end EducationRag
